import Mathlib

/-!
Verification of the JWT structural decoder and lifetime/status evaluator.

The definitions below are shallow embeddings of functions from the
repository sources:
  * `decodeToken` and `parseJwtPart` embed the `useMemo` decoder of
    `src/components/TokenDecoder.tsx` (lines 4-12 and 30-45);
  * `getStatus`, `formatDuration`, `timeRemaining`, `percentOf`,
    `minOf`, `maxOf` embed the helpers of the lifetime visualizer in
    `src/components/TokenEncoder.tsx` / `LifetimeVisualizer.tsx`;
  * `checkTokenExpiration` embeds the expiration classifier of
    `SignatureVerifier.tsx` (lines 35-52).

JavaScript numbers are modelled by `Int` (all values flowing through the
time logic are whole epoch seconds); a possibly-absent claim field is
`Option Int`, with JavaScript truthiness of a number (`undefined` and `0`
are falsy) captured by `isTruthy`.  The ambient wall clock
`Math.floor(Date.now() / 1000)` is threaded as an explicit `now`
parameter, exactly as spec section 9 prescribes for the core functions.
The third-party decoding stages used by `parseJwtPart` (base64url
decoding from the jose library, `TextDecoder`, `JSON.parse`) are not
repository code; they appear as explicit function parameters so every
statement quantifies over the possible behaviours of those stages.
`Math.round` on the timeline percentage is modelled exactly over `ℚ` by
`jsRound` (round half towards positive infinity).
-/

namespace JwtBench

/-- JavaScript truthiness of a possibly-absent number: `undefined` and
`0` are falsy, every other integer is truthy. -/
def isTruthy : Option Int → Bool
  | none => false
  | some v => v != 0

/-- The numeric value of a claim field; only consulted when the field is
truthy, the default is irrelevant to every theorem below. -/
def tval (o : Option Int) : Int := o.getD 0

/-- The JavaScript expression `o || d` on a possibly-absent number:
the value when truthy, otherwise the fallback `d`. -/
def orElse (o : Option Int) (d : Int) : Int :=
  if isTruthy o then tval o else d

/-- The record of the three optional time claims of a decoded payload. -/
structure Claims where
  iat : Option Int
  nbf : Option Int
  exp : Option Int
  deriving DecidableEq, Repr

/-- The status enumeration produced by `getStatus`. -/
inductive Status where
  | expired
  | notYetValid
  | active
  deriving DecidableEq, Repr

/-- Embeds `getStatus(iat?, nbf?, exp?)` of `TokenEncoder.tsx` lines
218-224 (identical in `LifetimeVisualizer.tsx` lines 14-20), with the
wall clock passed explicitly:

  if (exp && now > exp) return "expired"
  if (nbf && now < nbf) return "not yet valid"
  if (iat && now < iat) return "not yet valid"
  return "active"
-/
def getStatus (iat nbf exp : Option Int) (now : Int) : Status :=
  if isTruthy exp ∧ now > tval exp then .expired
  else if isTruthy nbf ∧ now < tval nbf then .notYetValid
  else if isTruthy iat ∧ now < tval iat then .notYetValid
  else .active

/-- The `{status, message}` record returned by `checkTokenExpiration`. -/
structure ExpirationCheck where
  status : String
  message : String
  deriving DecidableEq, Repr

/-- Embeds `checkTokenExpiration(jwt)` of `SignatureVerifier.tsx` lines
35-52.  The call `decodeJwt(jwt)` is jose-library code; its outcome is
the parameter `decoded` (`none` when `decodeJwt` throws, landing in the
catch branch):

  try {
    const decoded = decodeJwt(jwt)
    if (decoded.exp && decoded.exp < now) return { status: "expired", ... }
    if (decoded.nbf && decoded.nbf > now) return { status: "notyet", ... }
    return { status: "valid", ... }
  } catch (e) { return { status: "invalid", ... } }
-/
def checkTokenExpiration (decoded : Option Claims) (now : Int) : ExpirationCheck :=
  match decoded with
  | none => { status := "invalid", message := "Could not decode token" }
  | some c =>
    if isTruthy c.exp ∧ tval c.exp < now then
      { status := "expired", message := "Token has expired" }
    else if isTruthy c.nbf ∧ tval c.nbf > now then
      { status := "notyet", message := "Token not yet valid" }
    else
      { status := "valid", message := "Token is within validity period" }

/-- Embeds `formatDuration(seconds)` of `TokenEncoder.tsx` lines
235-240.  In every branch past the first the input is positive, so
`Math.floor(seconds / n)` is integer division. -/
def formatDuration (seconds : Int) : String :=
  if seconds < 60 then toString seconds ++ " seconds"
  else if seconds < 3600 then toString (seconds / 60) ++ " minutes"
  else if seconds < 86400 then toString (seconds / 3600) ++ " hours"
  else toString (seconds / 86400) ++ " days"

/-- The `{label, value, negative}` record of the remaining-time summary. -/
structure Remaining where
  label : String
  value : String
  negative : Bool
  deriving DecidableEq, Repr

/-- Embeds the `timeRemaining` memo of `TokenEncoder.tsx` lines 279-291,
over the decoded payload's time claims (`payload?.iat` etc.):

  if (!payload) return null
  if (status === "expired")
    return { label: "Expired", value: formatDuration(now - (exp || now)), negative: true }
  else if (status === "not yet valid") {
    const validIn = (nbf || iat || now) - now
    return { label: "Valid in", value: formatDuration(validIn), negative: false }
  } else if (exp) {
    const remaining = exp - now
    return { label: "Expires in", value: formatDuration(remaining), negative: false }
  }
  return null
-/
def timeRemaining (payload : Option Claims) (now : Int) : Option Remaining :=
  match payload with
  | none => none
  | some c =>
    match getStatus c.iat c.nbf c.exp now with
    | .expired =>
      some { label := "Expired", value := formatDuration (now - orElse c.exp now),
             negative := true }
    | .notYetValid =>
      some { label := "Valid in",
             value := formatDuration (orElse c.nbf (orElse c.iat now) - now),
             negative := false }
    | .active =>
      if isTruthy c.exp then
        some { label := "Expires in", value := formatDuration (tval c.exp - now),
               negative := false }
      else none

/-- Embeds `min = Math.min(iat || now, nbf || now, now)` of
`TokenEncoder.tsx` line 274 / `LifetimeVisualizer.tsx` line 39. -/
def minOf (iat nbf : Option Int) (now : Int) : Int :=
  min (min (orElse iat now) (orElse nbf now)) now

/-- Embeds `max = Math.max(exp || now, now)` of `TokenEncoder.tsx`
line 275 / `LifetimeVisualizer.tsx` line 40. -/
def maxOf (exp : Option Int) (now : Int) : Int :=
  max (orElse exp now) now

/-- JavaScript `Math.round` on an exact rational: nearest integer,
ties towards positive infinity. -/
def jsRound (q : ℚ) : Int := ⌊q + 1 / 2⌋

/-- Embeds `percent = (v) => (v ? Math.round(((v - min) / (max - min)) * 100) : 0)`
of `TokenEncoder.tsx` line 276 / `LifetimeVisualizer.tsx` line 41.  The
arithmetic is exact rational arithmetic; the degenerate division when
`maxV = minV` (NaN or an infinity in JavaScript) is outside every
theorem below, which all either keep `minV < maxV` or stay away from
the division. -/
def percentOf (v : Option Int) (minV maxV : Int) : Int :=
  if isTruthy v then
    jsRound ((((tval v : ℚ) - (minV : ℚ)) / ((maxV : ℚ) - (minV : ℚ))) * 100)
  else 0

/-- Accumulator pass over the characters: emit the segment gathered so
far (in reverse) at each `'.'` and at the end of the input. -/
def splitDotAux : List Char → List Char → List String
  | [], acc => [String.mk acc.reverse]
  | c :: cs, acc =>
    if c = '.' then String.mk acc.reverse :: splitDotAux cs []
    else splitDotAux cs (c :: acc)

/-- Model of the JavaScript call `s.split(".")` (a single-character,
non-regex separator): the maximal `'.'`-free chunks of `s`, including
empty chunks between adjacent dots and at either end; the empty string
yields `[""]`. -/
def splitDot (s : String) : List String := splitDotAux s.data []

/-- The `{header, payload, signature, error}` record produced by the
token decoder, with the JSON value type abstract. -/
structure DecodeResult (α : Type) where
  header : Option α
  payload : Option α
  signature : String
  error : String
  deriving DecidableEq, Repr

/-- Embeds `parseJwtPart(part)` of `TokenDecoder.tsx` lines 4-12.  The
three stages are third-party code (jose `base64url.decode`, the
platform `TextDecoder`, `JSON.parse`); each is a parameter returning
`none` where the JavaScript stage throws, and the surrounding
`try/catch` returning `null` is the `Option` bind:

  try {
    const bytes = base64url.decode(part)
    const json = new TextDecoder().decode(bytes)
    return JSON.parse(json)
  } catch { return null }
-/
def parseJwtPart {α : Type} (b64 : String → Option (List Nat))
    (utf8 : List Nat → Option String) (json : String → Option α)
    (part : String) : Option α :=
  match b64 part with
  | none => none
  | some bytes =>
    match utf8 bytes with
    | none => none
    | some s => json s

/-- Embeds the decoding `useMemo` of `TokenDecoder.tsx` lines 30-45,
with the per-segment decoder (`parseJwtPart`) abstracted as `parse`.
The state `jwt` is always the trimmed input (the change handler stores
`e.target.value.trim()`):

  if (!jwt) return { header: null, payload: null, signature: "", error: "" }
  const parts = jwt.split(".")
  if (parts.length !== 3) {
    return { header: null, payload: null, signature: "",
             error: "JWT must have 3 parts (header.payload.signature)" }
  }
  return { header: parseJwtPart(parts[0]), payload: parseJwtPart(parts[1]),
           signature: parts[2], error: "" }
-/
def decodeToken {α : Type} (parse : String → Option α) (jwt : String) :
    DecodeResult α :=
  if jwt = "" then { header := none, payload := none, signature := "", error := "" }
  else
    let parts := splitDot jwt
    if parts.length ≠ 3 then
      { header := none, payload := none, signature := "",
        error := "JWT must have 3 parts (header.payload.signature)" }
    else
      { header := parse parts[0]!, payload := parse parts[1]!,
        signature := parts[2]!, error := "" }

/-! ## Helper lemmas -/

/-- A truthy field is a `some` whose value is nonzero. -/
lemma isTruthy_some_iff (v : Int) : isTruthy (some v) = true ↔ v ≠ 0 := by
  simp [isTruthy]

/-- `tval` on a `some` is the stored value. -/
lemma tval_some (v : Int) : tval (some v) = v := rfl

/-- `orElse` on a truthy field is the stored value. -/
lemma orElse_of_truthy {o : Option Int} (d : Int) (h : isTruthy o = true) :
    orElse o d = tval o := by
  simp [orElse, h]

/-- `orElse` on a falsy field is the fallback. -/
lemma orElse_of_falsy {o : Option Int} (d : Int) (h : isTruthy o = false) :
    orElse o d = d := by
  simp [orElse, h]

/-! ## Theorems for the claims -/

/-- Claim C1: for every input string, `decodeToken` applies the
structural gate — the empty (trimmed) input yields the neutral state
with null header and payload, empty signature and no error; a dot-split
with a segment count other than exactly 3 yields null header and
payload, empty signature and the error
"JWT must have 3 parts (header.payload.signature)"; otherwise the first
two segments are handed to the per-segment decoder and the third passes
through unchanged as the signature string. -/
theorem decodeToken_structural_gate {α : Type} (parse : String → Option α) :
    decodeToken parse "" =
      { header := none, payload := none, signature := "", error := "" } ∧
    (∀ jwt : String, jwt ≠ "" → (splitDot jwt).length ≠ 3 →
      decodeToken parse jwt =
        { header := none, payload := none, signature := "",
          error := "JWT must have 3 parts (header.payload.signature)" }) ∧
    (∀ jwt : String, jwt ≠ "" → (splitDot jwt).length = 3 →
      decodeToken parse jwt =
        { header := parse (splitDot jwt)[0]!, payload := parse (splitDot jwt)[1]!,
          signature := (splitDot jwt)[2]!, error := "" }) := by
  refine ⟨rfl, ?_, ?_⟩ <;> intro jwt h1 h2 <;> simp [decodeToken, h1, h2]

/-- Witness for C1 at the inputs `""`, `"a.b"` and `"a.b.c"`. -/
theorem decodeToken_structural_gate_spot :
    decodeToken (fun _ => (none : Option Unit)) "" =
      { header := none, payload := none, signature := "", error := "" } ∧
    decodeToken (fun _ => (none : Option Unit)) "a.b" =
      { header := none, payload := none, signature := "",
        error := "JWT must have 3 parts (header.payload.signature)" } ∧
    decodeToken (fun _ => (none : Option Unit)) "a.b.c" =
      { header := none, payload := none, signature := "c", error := "" } :=
  ⟨(decodeToken_structural_gate _).1,
   (decodeToken_structural_gate _).2.1 "a.b" (by decide) (by decide),
   ((decodeToken_structural_gate _).2.2 "a.b.c" (by decide) (by decide)).trans
     (by decide)⟩

/-- Claim C2: `parseJwtPart` never raises past its boundary — a failure
of any of its three stages (base64url decoding, UTF-8 decoding, JSON
parsing) yields `none`; in the three-segment branch `decodeToken`
reports per-segment failures only through null header/payload, never
through the error field; and the input "not.a.jwt", whose first two
segments fail to decode, yields null header, null payload, the raw
third segment "jwt" as the signature, and no error. -/
theorem parseJwtPart_never_raises {α : Type} :
    (∀ (b64 : String → Option (List Nat)) (utf8 : List Nat → Option String)
        (json : String → Option α) (part : String),
      (b64 part = none → parseJwtPart b64 utf8 json part = none) ∧
      (∀ bs, b64 part = some bs → utf8 bs = none →
        parseJwtPart b64 utf8 json part = none) ∧
      (∀ bs s, b64 part = some bs → utf8 bs = some s → json s = none →
        parseJwtPart b64 utf8 json part = none)) ∧
    (∀ (parse : String → Option α) (jwt : String), jwt ≠ "" →
      (splitDot jwt).length = 3 → (decodeToken parse jwt).error = "") ∧
    (∀ parse : String → Option α, parse "not" = none → parse "a" = none →
      decodeToken parse "not.a.jwt" =
        { header := none, payload := none, signature := "jwt", error := "" }) := by
  refine ⟨?_, ?_, ?_⟩
  · intro b64 utf8 json part
    refine ⟨?_, ?_, ?_⟩
    · intro h; simp [parseJwtPart, h]
    · intro bs h1 h2; simp [parseJwtPart, h1, h2]
    · intro bs s h1 h2 h3; simp [parseJwtPart, h1, h2, h3]
  · intro parse jwt h1 h2
    simp [decodeToken, h1, h2]
  · intro parse h1 h2
    have e : splitDot "not.a.jwt" = ["not", "a", "jwt"] := by decide
    simp [decodeToken, e, h1, h2]

/-- Witness for C2 with stages and a per-segment decoder that always
fail. -/
theorem parseJwtPart_never_raises_spot :
    parseJwtPart (fun _ => (none : Option (List Nat)))
      (fun _ => (none : Option String)) (fun _ => (none : Option Unit)) "x" = none ∧
    (decodeToken (fun _ => (none : Option Unit)) "a.b.c").error = "" ∧
    decodeToken (fun _ => (none : Option Unit)) "not.a.jwt" =
      { header := none, payload := none, signature := "jwt", error := "" } :=
  ⟨((parseJwtPart_never_raises (α := Unit)).1 _ _ _ "x").1 rfl,
   (parseJwtPart_never_raises (α := Unit)).2.1 _ "a.b.c" (by decide) (by decide),
   (parseJwtPart_never_raises (α := Unit)).2.2 _ rfl rfl⟩

/-- Claim C3: `getStatus` checks the expiry condition first — whenever
`exp` is present and truthy and `now > exp`, the status is `expired`,
for every `nbf` and `iat`. -/
theorem getStatus_expired_first (iat nbf : Option Int) (e now : Int)
    (he : e ≠ 0) (hnow : now > e) :
    getStatus iat nbf (some e) now = .expired := by
  have ht : isTruthy (some e) = true := (isTruthy_some_iff e).mpr he
  simp [getStatus, ht, tval, hnow]

/-- Witness for C3: claims `{exp : T - 1}` at `now = T` with `T = 2`,
with `nbf` and `iat` values that would independently suggest
"not yet valid". -/
theorem getStatus_expired_first_spot :
    getStatus (some 99) (some 99) (some 1) 2 = .expired :=
  getStatus_expired_first (some 99) (some 99) 1 2 (by decide) (by decide)

/-- Claim C5: a time-claim value of 0 is treated exactly as an absent
claim by `getStatus` — replacing an absent `iat`, `nbf` or `exp` by 0
never changes the status, and `{exp : 0}` is never `expired`. -/
theorem getStatus_zero_claim_absent (iat nbf exp : Option Int) (now : Int) :
    getStatus (some 0) nbf exp now = getStatus none nbf exp now ∧
    getStatus iat (some 0) exp now = getStatus iat none exp now ∧
    getStatus iat nbf (some 0) now = getStatus iat nbf none now ∧
    getStatus iat nbf (some 0) now ≠ .expired := by
  refine ⟨by simp [getStatus, isTruthy], by simp [getStatus, isTruthy],
    by simp [getStatus, isTruthy], ?_⟩
  simp only [getStatus, isTruthy]
  split
  · simp_all
  · split
    · simp
    · split <;> simp

/-- Claim C6: a payload that fails to decode yields the distinct status
"invalid" through the separate catch branch of `checkTokenExpiration`:
the result on a failed decode is the invalid record for every clock
value (so the temporal evaluation is never consulted), and no decodable
payload ever produces the "invalid" status. -/
theorem checkTokenExpiration_invalid_on_decode_failure :
    (∀ now : Int, checkTokenExpiration none now =
      { status := "invalid", message := "Could not decode token" }) ∧
    (∀ now now' : Int,
      checkTokenExpiration none now = checkTokenExpiration none now') ∧
    (∀ (c : Claims) (now : Int),
      (checkTokenExpiration (some c) now).status ≠ "invalid") := by
  refine ⟨fun _ => rfl, fun _ _ => rfl, ?_⟩
  intro c now
  simp only [checkTokenExpiration]
  split
  · simp
  · split <;> simp

/-- Claim C10: `checkTokenExpiration` never consults `iat` — any
decodable payload with no truthy `exp` and no truthy `nbf` is reported
"valid" at every clock value, whatever `iat` holds; by contrast
`getStatus` classifies a lone future `iat` as not yet valid. -/
theorem checkTokenExpiration_ignores_iat :
    (∀ (c : Claims) (now : Int), isTruthy c.exp = false →
      isTruthy c.nbf = false →
      checkTokenExpiration (some c) now =
        { status := "valid", message := "Token is within validity period" }) ∧
    (∀ i now : Int, i ≠ 0 → now < i →
      getStatus (some i) none none now = .notYetValid) := by
  constructor
  · intro c now h1 h2
    simp [checkTokenExpiration, h1, h2]
  · intro i now h1 h2
    simp [getStatus, isTruthy, tval, h1, h2]

/-- Witness for C10: a payload whose only claim is the future
`iat = 999`, evaluated at `now = 0`. -/
theorem checkTokenExpiration_ignores_iat_spot :
    checkTokenExpiration (some { iat := some 999, nbf := none, exp := none }) 0 =
      { status := "valid", message := "Token is within validity period" } ∧
    getStatus (some 999) none none 0 = .notYetValid :=
  ⟨checkTokenExpiration_ignores_iat.1 _ 0 rfl rfl,
   checkTokenExpiration_ignores_iat.2 999 0 (by decide) (by decide)⟩

/-- Counterexample to claim C4 as stated: with a truthy `nbf = 100`,
evaluating `getStatus` at `now = 100 = nbf` DOES yield not yet valid,
because the later check on the future `iat = 200` fires. -/
theorem getStatus_at_nbf_notYetValid :
    getStatus (some 200) (some 100) none 100 = .notYetValid := by decide

/-- Claim C4 (amended): the temporal comparisons are strict — at
`now = exp` the status is never `expired` (for `getStatus` with any
`exp` value, and for `checkTokenExpiration` with `exp` present); at
`now = nbf` the `nbf` check itself never fires: `checkTokenExpiration`
never reports "notyet" there, and `getStatus` reports not-yet-valid at
`now = nbf` only when a truthy future `iat` fires instead — absent such
an `iat`, `now = nbf` does not yield not yet valid. -/
theorem strict_boundary_comparisons :
    (∀ (iat nbf : Option Int) (e : Int),
      getStatus iat nbf (some e) e ≠ .expired) ∧
    (∀ (c : Claims) (e : Int), c.exp = some e →
      (checkTokenExpiration (some c) e).status ≠ "expired") ∧
    (∀ (c : Claims) (b : Int), c.nbf = some b →
      (checkTokenExpiration (some c) b).status ≠ "notyet") ∧
    (∀ (iat exp : Option Int) (b : Int),
      (isTruthy iat = true → tval iat ≤ b) →
      getStatus iat (some b) exp b ≠ .notYetValid) := by
  refine ⟨?_, ?_, ?_, ?_⟩
  · intro iat nbf e
    simp only [getStatus, tval]
    split
    · next h => exact absurd h.2 (lt_irrefl e)
    · split
      · simp
      · split <;> simp
  · intro c e he
    simp only [checkTokenExpiration]
    split
    · next h => rw [he] at h; exact absurd h.2 (by simp [tval])
    · split <;> simp
  · intro c b hb
    simp only [checkTokenExpiration]
    split
    · simp
    · split
      · next h => exact absurd h.2 (by simp [tval, hb])
      · simp
  · intro iat exp b hiat
    simp only [getStatus, tval]
    split
    · simp
    · split
      · next h => exact absurd h.2 (by simp [tval])
      · split
        · next h => exact absurd h.2 (not_lt.mpr (hiat h.1))
        · simp

/-- Witness for C4 (amended) at `now = 100` with `exp = 100`,
`nbf = 100`, and a past `iat`. -/
theorem strict_boundary_comparisons_spot :
    getStatus (some 1) (some 2) (some 100) 100 ≠ .expired ∧
    (checkTokenExpiration
      (some { iat := none, nbf := none, exp := some 100 }) 100).status ≠ "expired" ∧
    (checkTokenExpiration
      (some { iat := none, nbf := some 100, exp := none }) 100).status ≠ "notyet" ∧
    getStatus (some 50) (some 100) none 100 ≠ .notYetValid :=
  ⟨strict_boundary_comparisons.1 (some 1) (some 2) 100,
   strict_boundary_comparisons.2.1 _ 100 rfl,
   strict_boundary_comparisons.2.2.1 _ 100 rfl,
   strict_boundary_comparisons.2.2.2 (some 50) none 100 (fun _ => by decide)⟩

/-- Claim C9: `formatDuration` truncates at fixed tiers — a non-negative
second count `s` renders as `s` whole seconds below 60, as `s / 60`
whole minutes below 3600, as `s / 3600` whole hours below 86400, and as
`s / 86400` whole days otherwise (integer division, hence truncation);
and claims `{iat : 1000, nbf : 1000, exp : 2000}` evaluated at
`now = 2500` yield status `expired` with remaining-time summary
`{label : "Expired", value : "8 minutes", negative : true}`. -/
theorem formatDuration_tiers :
    (∀ s : Int, 0 ≤ s →
      (s < 60 → formatDuration s = toString s ++ " seconds") ∧
      (60 ≤ s → s < 3600 → formatDuration s = toString (s / 60) ++ " minutes") ∧
      (3600 ≤ s → s < 86400 → formatDuration s = toString (s / 3600) ++ " hours") ∧
      (86400 ≤ s → formatDuration s = toString (s / 86400) ++ " days")) ∧
    getStatus (some 1000) (some 1000) (some 2000) 2500 = .expired ∧
    timeRemaining (some { iat := some 1000, nbf := some 1000, exp := some 2000 }) 2500 =
      some { label := "Expired", value := "8 minutes", negative := true } := by
  refine ⟨?_, by decide, by decide⟩
  intro s _
  refine ⟨fun h1 => ?_, fun h1 h2 => ?_, fun h1 h2 => ?_, fun h1 => ?_⟩
  · simp [formatDuration, h1]
  · simp [formatDuration, h2, show ¬s < 60 by omega]
  · simp [formatDuration, h2, show ¬s < 60 by omega, show ¬s < 3600 by omega]
  · simp [formatDuration, show ¬s < 60 by omega, show ¬s < 3600 by omega,
      show ¬s < 86400 by omega]

/-- Witness for C9 at `s = 500`: 500 seconds render as 8 whole
minutes. -/
theorem formatDuration_tiers_spot : formatDuration 500 = "8 minutes" :=
  ((formatDuration_tiers.1 500 (by decide)).2.1 (by decide) (by decide)).trans
    (by decide)

/-- Inversion: an `expired` verdict means the expiry check fired. -/
lemma getStatus_expired_inv {iat nbf exp : Option Int} {now : Int}
    (h : getStatus iat nbf exp now = .expired) :
    isTruthy exp = true ∧ now > tval exp := by
  by_cases h1 : isTruthy exp = true ∧ now > tval exp
  · exact h1
  · exfalso
    simp only [getStatus] at h
    rw [if_neg h1] at h
    split at h
    · simp_all
    · split at h <;> simp_all

/-- Inversion: a not-yet-valid verdict means the expiry check did not
fire and either the `nbf` check fired, or the `nbf` check did not fire
and the `iat` check fired. -/
lemma getStatus_notYetValid_inv {iat nbf exp : Option Int} {now : Int}
    (h : getStatus iat nbf exp now = .notYetValid) :
    ¬(isTruthy exp = true ∧ now > tval exp) ∧
    ((isTruthy nbf = true ∧ now < tval nbf) ∨
      (¬(isTruthy nbf = true ∧ now < tval nbf) ∧
        isTruthy iat = true ∧ now < tval iat)) := by
  by_cases h1 : isTruthy exp = true ∧ now > tval exp
  · exfalso; simp only [getStatus] at h; rw [if_pos h1] at h; exact absurd h (by simp)
  · refine ⟨h1, ?_⟩
    by_cases h2 : isTruthy nbf = true ∧ now < tval nbf
    · exact Or.inl h2
    · by_cases h3 : isTruthy iat = true ∧ now < tval iat
      · exact Or.inr ⟨h2, h3⟩
      · exfalso
        simp only [getStatus] at h
        rw [if_neg h1, if_neg h2, if_neg h3] at h
        exact absurd h (by simp)

/-- Inversion: an `active` verdict means the expiry check did not
fire. -/
lemma getStatus_active_inv {iat nbf exp : Option Int} {now : Int}
    (h : getStatus iat nbf exp now = .active) :
    ¬(isTruthy exp = true ∧ now > tval exp) := by
  intro hc
  simp only [getStatus] at h
  rw [if_pos hc] at h
  exact absurd h (by simp)

/-- Counterexample to claim C7 as stated: the payload
`{iat : 200, nbf : 50}` evaluated at `now = 100` is not yet valid (the
future `iat` fires) yet the magnitude fed into duration formatting is
`(nbf or iat, preferring nbf) - now = 50 - 100 = -50`, a negative
second count, rendered "-50 seconds". -/
theorem timeRemaining_negative_magnitude :
    timeRemaining (some { iat := some 200, nbf := some 50, exp := none }) 100 =
      some { label := "Valid in", value := formatDuration (-50), negative := false } ∧
    formatDuration (-50) = "-50 seconds" ∧
    orElse (some 50) (orElse (some 200) 100) - 100 = -50 :=
  ⟨by decide, by decide, by decide⟩

/-- Claim C7 (amended): whenever `timeRemaining` produces a
remaining-time summary, the magnitude it feeds into duration formatting
is `now - (exp or now)` in the expired case, `(nbf or iat, preferring
nbf) - now` in the not-yet-valid case, and `exp - now` in the active
case; the magnitude is non-negative in the expired and active cases,
and in the not-yet-valid case whenever a truthy `nbf` is not in the
past — with a stale truthy `nbf ≤ now` alongside a future `iat` it can
be negative. -/
theorem timeRemaining_magnitude (c : Claims) (now : Int) :
    (getStatus c.iat c.nbf c.exp now = .expired →
      timeRemaining (some c) now =
        some { label := "Expired", value := formatDuration (now - orElse c.exp now),
               negative := true } ∧
      0 ≤ now - orElse c.exp now) ∧
    (getStatus c.iat c.nbf c.exp now = .notYetValid →
      timeRemaining (some c) now =
        some { label := "Valid in",
               value := formatDuration (orElse c.nbf (orElse c.iat now) - now),
               negative := false } ∧
      ((isTruthy c.nbf = true → now ≤ tval c.nbf) →
        0 ≤ orElse c.nbf (orElse c.iat now) - now)) ∧
    (getStatus c.iat c.nbf c.exp now = .active → isTruthy c.exp = true →
      timeRemaining (some c) now =
        some { label := "Expires in", value := formatDuration (tval c.exp - now),
               negative := false } ∧
      0 ≤ tval c.exp - now) := by
  refine ⟨fun hs => ?_, fun hs => ?_, fun hs hexp => ?_⟩
  · obtain ⟨htr, hgt⟩ := getStatus_expired_inv hs
    refine ⟨by simp [timeRemaining, hs], ?_⟩
    rw [orElse_of_truthy now htr]
    omega
  · obtain ⟨-, hcase⟩ := getStatus_notYetValid_inv hs
    refine ⟨by simp [timeRemaining, hs], fun hnb => ?_⟩
    rcases hcase with ⟨hb, hlt⟩ | ⟨hnot, hi, hlt⟩
    · rw [orElse_of_truthy _ hb]
      omega
    · rcases hb : isTruthy c.nbf with _ | _
      · rw [orElse_of_falsy _ hb, orElse_of_truthy now hi]
        omega
      · rw [orElse_of_truthy _ hb]
        have := hnb hb
        omega
  · have hna := getStatus_active_inv hs
    have hle : now ≤ tval c.exp := by
      by_contra hgt
      exact hna ⟨hexp, by omega⟩
    refine ⟨by simp [timeRemaining, hs, hexp], by omega⟩

/-- Witness for C7 (amended): the expired case of scenario D, and a
not-yet-valid case whose truthy `nbf = 300` lies ahead of
`now = 100`. -/
theorem timeRemaining_magnitude_spot :
    timeRemaining (some { iat := some 1000, nbf := some 1000, exp := some 2000 }) 2500 =
      some { label := "Expired", value := "8 minutes", negative := true } ∧
    timeRemaining (some { iat := none, nbf := some 300, exp := none }) 100 =
      some { label := "Valid in", value := "3 minutes", negative := false } ∧
    (0 : Int) ≤ orElse (some 300) (orElse none 100) - 100 :=
  ⟨(((timeRemaining_magnitude
      { iat := some 1000, nbf := some 1000, exp := some 2000 } 2500).1
      (by decide)).1).trans (by decide),
   (((timeRemaining_magnitude { iat := none, nbf := some 300, exp := none } 100).2.1
      (by decide)).1).trans (by decide),
   ((timeRemaining_magnitude { iat := none, nbf := some 300, exp := none } 100).2.1
      (by decide)).2 (fun _ => by decide)⟩

/-- Counterexample to claim C8 as stated: with claims
`{iat : 50, nbf : 200}` (no `exp`) at `now = 100`, the derived bounds
are `min = 50` and `max = 100`, and the point `v = nbf = 200` maps to
`round(((200 - 50) / (100 - 50)) * 100) = 300`, outside 0..100. -/
theorem percentOf_out_of_range :
    percentOf (some 200) (minOf (some 50) (some 200) 100) (maxOf none 100) = 300 ∧
    ¬(percentOf (some 200) (minOf (some 50) (some 200) 100) (maxOf none 100) ≤ 100) := by
  have h1 : minOf (some 50) (some 200) 100 = 50 := by decide
  have h2 : maxOf none 100 = 100 := by decide
  have h3 : percentOf (some 200) 50 100 = 300 := by
    norm_num [percentOf, jsRound, isTruthy, tval]
  rw [h1, h2, h3]
  exact ⟨rfl, by decide⟩

/-- Claim C8 (amended): `percentOf` returns 0 for an undefined (or
falsy 0) point value, and for a defined truthy `v` it returns
`round(((v - min) / (max - min)) * 100)` exactly; that result lies in
the range 0..100 whenever `min < max` and `v` lies between `min` and
`max`, but a point outside `[min, max]` can map outside 0..100. -/
theorem percentOf_formula_and_range (v minV maxV : Int) :
    percentOf none minV maxV = 0 ∧
    percentOf (some 0) minV maxV = 0 ∧
    (v ≠ 0 → percentOf (some v) minV maxV =
      jsRound ((((v : ℚ) - (minV : ℚ)) / ((maxV : ℚ) - (minV : ℚ))) * 100)) ∧
    (v ≠ 0 → minV < maxV → minV ≤ v → v ≤ maxV →
      0 ≤ percentOf (some v) minV maxV ∧ percentOf (some v) minV maxV ≤ 100) := by
  refine ⟨rfl, by simp [percentOf, isTruthy], fun hv => ?_,
    fun hv hlt hle1 hle2 => ?_⟩
  · simp [percentOf, isTruthy, tval, hv]
  · have hv' : isTruthy (some v) = true := (isTruthy_some_iff v).mpr hv
    have hq : percentOf (some v) minV maxV =
        jsRound ((((v : ℚ) - (minV : ℚ)) / ((maxV : ℚ) - (minV : ℚ))) * 100) := by
      simp [percentOf, hv', tval]
    have hd : (0 : ℚ) < (maxV : ℚ) - (minV : ℚ) := by
      have : (minV : ℚ) < (maxV : ℚ) := by exact_mod_cast hlt
      linarith
    have hq0 : 0 ≤ ((v : ℚ) - (minV : ℚ)) / ((maxV : ℚ) - (minV : ℚ)) := by
      apply div_nonneg _ (le_of_lt hd)
      have : (minV : ℚ) ≤ (v : ℚ) := by exact_mod_cast hle1
      linarith
    have hq1 : ((v : ℚ) - (minV : ℚ)) / ((maxV : ℚ) - (minV : ℚ)) ≤ 1 := by
      rw [div_le_one hd]
      have : (v : ℚ) ≤ (maxV : ℚ) := by exact_mod_cast hle2
      linarith
    rw [hq]
    unfold jsRound
    constructor
    · apply Int.le_floor.mpr
      push_cast
      nlinarith
    · have hfl : ⌊((v : ℚ) - (minV : ℚ)) / ((maxV : ℚ) - (minV : ℚ)) * 100 + 1 / 2⌋
          < (101 : Int) := by
        apply Int.floor_lt.mpr
        push_cast
        nlinarith
      omega

/-- Witness for C8 (amended) at `v = 50`, `min = 0`, `max = 100`. -/
theorem percentOf_formula_and_range_spot :
    percentOf (some 50) 0 100 = 50 ∧
    0 ≤ percentOf (some 50) 0 100 ∧ percentOf (some 50) 0 100 ≤ 100 :=
  ⟨((percentOf_formula_and_range 50 0 100).2.2.1 (by decide)).trans
      (by norm_num [jsRound]),
   (percentOf_formula_and_range 50 0 100).2.2.2 (by decide) (by decide)
      (by decide) (by decide)⟩

end JwtBench
